import Mathlib

/-!
Verification development for the collabboard client sync engine.

Shallow embedding of:
- the `useBoard` hook (object store, broadcast handlers, `createObject`,
  `updateObject`, `deleteObject`, `applyAiResults`, load / reconnect logic);
- the geometry layer of `Board.tsx` (`isInsideFrame`,
  `collectLockedFrameContents`, multi-drag session init, drag-move and
  drag-end handlers);
- the cursor throttle of `usePresence.ts`.

JavaScript numbers are modelled by `Rat` (exact for the dyadic arithmetic the
code performs), timestamps by `Int`, the free-form `properties` map by the one
field the embedded logic reads (`locked`, with JS-truthiness defaulting to
`false` when absent).
-/

namespace CollabBoard

/-- Board object row, after `types/board.ts` `BoardObject`.  The polymorphic
`properties` payload is represented by the single field the embedded logic
inspects, `properties.locked` (absent ⇒ falsy ⇒ `false`). -/
structure BoardObject where
  id : String
  board_id : String
  type : String
  x : Rat
  y : Rat
  width : Rat
  height : Rat
  rotation : Rat
  z_index : Int
  properties_locked : Bool
  created_by : String
  updated_by : String
deriving DecidableEq, Repr

/-- Partial update (`Partial<BoardObject>`): every field optional; a `some`
field overrides the target on spread, a `none` field leaves it alone. -/
structure ObjPatch where
  id : Option String := none
  board_id : Option String := none
  type : Option String := none
  x : Option Rat := none
  y : Option Rat := none
  width : Option Rat := none
  height : Option Rat := none
  rotation : Option Rat := none
  z_index : Option Int := none
  properties_locked : Option Bool := none
  created_by : Option String := none
  updated_by : Option String := none
deriving DecidableEq, Repr

/-- JS object spread `{...o, ...p}` for a partial `p`. -/
def applyPatch (o : BoardObject) (p : ObjPatch) : BoardObject :=
  { id := p.id.getD o.id
    board_id := p.board_id.getD o.board_id
    type := p.type.getD o.type
    x := p.x.getD o.x
    y := p.y.getD o.y
    width := p.width.getD o.width
    height := p.height.getD o.height
    rotation := p.rotation.getD o.rotation
    z_index := p.z_index.getD o.z_index
    properties_locked := p.properties_locked.getD o.properties_locked
    created_by := p.created_by.getD o.created_by
    updated_by := p.updated_by.getD o.updated_by }

/-- View a full object as the patch carrying all of its fields (the payload
shape `applyAiResults` broadcasts for an update: the whole object). -/
def toPatch (o : BoardObject) : ObjPatch :=
  { id := some o.id
    board_id := some o.board_id
    type := some o.type
    x := some o.x
    y := some o.y
    width := some o.width
    height := some o.height
    rotation := some o.rotation
    z_index := some o.z_index
    properties_locked := some o.properties_locked
    created_by := some o.created_by
    updated_by := some o.updated_by }

/-- The client-side object list held in the `objects` React state. -/
abbrev Store := List BoardObject

/-- Ids of the objects in a store. -/
def storeIds (s : Store) : List String := s.map (fun o => o.id)

/-- Number of objects carrying a given id. -/
def countId (s : Store) (i : String) : Nat :=
  (s.filter (fun o => o.id == i)).length

/-! Inbound broadcast handlers of `useBoard` (`channel.on('broadcast', …)`). -/

/-- Handler for `object-move`: reposition the matching object, if any. -/
def applyObjectMove (s : Store) (i : String) (mx my : Rat) : Store :=
  s.map (fun o => if o.id == i then { o with x := mx, y := my } else o)

/-- Handler for `object-create` (store part): append unless an object with the
same id is already present. -/
def applyObjectCreate (s : Store) (n : BoardObject) : Store :=
  if s.any (fun o => o.id == n.id) then s else s ++ [n]

/-- Handler for `object-create` (counter part): raise `zIndexCounter` to the
incoming object's `z_index` when that is larger. -/
def inboundCreateCounter (c : Int) (n : BoardObject) : Int :=
  if n.z_index > c then n.z_index else c

/-- Handler for `object-update`: the payload is destructured as
`{ id, ...updates }`, so any `id` field inside the patch is stripped before
the spread merge onto the matching object. -/
def applyObjectUpdate (s : Store) (i : String) (p : ObjPatch) : Store :=
  s.map (fun o => if o.id == i then applyPatch o { p with id := none } else o)

/-- Handler for `object-delete`: drop every object with the given id. -/
def applyObjectDelete (s : Store) (i : String) : Store :=
  s.filter (fun o => o.id != i)

/-- Inbound broadcast events a client can receive on the board channel. -/
inductive InEvent where
  | create (o : BoardObject)
  | update (i : String) (p : ObjPatch)
  | delete (i : String)
  | move (i : String) (mx my : Rat)
deriving DecidableEq, Repr

/-- Apply one inbound event to the store. -/
def applyInEvent (s : Store) (e : InEvent) : Store :=
  match e with
  | .create o => applyObjectCreate s o
  | .update i p => applyObjectUpdate s i p
  | .delete i => applyObjectDelete s i
  | .move i mx my => applyObjectMove s i mx my

/-- Apply a sequence of inbound events in order. -/
def applyInEvents (s : Store) (es : List InEvent) : Store :=
  es.foldl applyInEvent s

/-! Local mutation paths of `useBoard` (`createObject`, `updateObject`,
`deleteObject`, `applyAiResults`) together with their broadcast emissions and
persistence writes. -/

/-- Client state the useBoard hook threads through its operations: the
`objects` React state and the `zIndexCounter` ref. -/
structure ClientState where
  objects : Store
  zIndexCounter : Int
deriving DecidableEq, Repr

/-- Counter seeding used by the initial load and the reconnect reload:
`data.reduce((max, o) => Math.max(max, o.z_index ?? 0), 0)`. -/
def seedZIndexCounter (data : Store) : Int :=
  data.foldl (fun m o => max m o.z_index) 0

/-- Effect of `loadObjects` (mount-time load): when the scoped read returns
data, replace the store wholesale and re-seed the counter; on a read error
only a log line is emitted and the state is untouched. -/
def loadObjects (st : ClientState) (data : Option Store) : ClientState :=
  match data with
  | some d => { objects := d, zIndexCounter := seedZIndexCounter d }
  | none => st

/-- Broadcast events a client emits on the board channel. -/
inductive BEvent where
  | objCreate (o : BoardObject)
  | objUpdate (i : String) (p : ObjPatch)
  | objDelete (i : String)
  | objMove (i : String) (mx my : Rat)
deriving DecidableEq, Repr

/-- Durable-storage writes a client issues.  The insert payload carries no id
(the row store assigns one); the update payload is `{...updates, updated_by}`.
-/
inductive DbWrite where
  | insertRow (row : BoardObject)
  | updateRow (i : String) (p : ObjPatch)
  | deleteRow (i : String)
deriving DecidableEq, Repr

/-- Argument of `createObject`: `Partial<BoardObject> & { type: string }`.
Only the fields the function reads are kept (`type`, `x`, `y`, `width`,
`height`, `properties`). -/
structure CreateInput where
  type : String
  x : Option Rat := none
  y : Option Rat := none
  width : Option Rat := none
  height : Option Rat := none
  properties_locked : Option Bool := none
deriving DecidableEq, Repr

/-- The `newObj` literal built inside `createObject` (defaults `x,y := 100`,
`width,height := 150`, `rotation := 0`, `properties := obj.properties ?? {}`).
The id is empty: it is assigned by the row store on insert. -/
def mkNewObject (boardId : String) (inp : CreateInput) (userId : String)
    (z : Int) : BoardObject :=
  { id := ""
    board_id := boardId
    type := inp.type
    x := inp.x.getD 100
    y := inp.y.getD 100
    width := inp.width.getD 150
    height := inp.height.getD 150
    rotation := 0
    z_index := z
    properties_locked := inp.properties_locked.getD false
    created_by := userId
    updated_by := userId }

/-- Complete run of one `createObject` call.  `storeDuringPersistence` is the
store the synchronous caller observes from the moment the call first suspends
until the insert resolves: the source awaits `auth.getUser()` and the insert
before its only `setObjects` call, so no mutation is visible earlier. -/
structure CreateRun where
  storeDuringPersistence : Store
  state : ClientState
  broadcasts : List BEvent
  dbWrites : List DbWrite
  returned : Option BoardObject
deriving DecidableEq, Repr

/-- `createObject` from `useBoard`, parameterised by the auth result (`user`)
and the insert result (`some assignedId` on success, `none` on error).  On
auth failure it returns `null` untouched; otherwise it builds `newObj` with
`z_index: ++zIndexCounter`, awaits the insert, and only on success appends the
created row to the store and broadcasts `object-create`; an insert error is
logged and `null` returned, with no store change and no broadcast. -/
def createObject (boardId : String) (st : ClientState) (inp : CreateInput)
    (user : Option String) (insertResult : Option String) : CreateRun :=
  match user with
  | none =>
    { storeDuringPersistence := st.objects, state := st, broadcasts := []
      dbWrites := [], returned := none }
  | some uid =>
    let z := st.zIndexCounter + 1
    let pending := mkNewObject boardId inp uid z
    match insertResult with
    | some assignedId =>
      let created := { pending with id := assignedId }
      { storeDuringPersistence := st.objects
        state := { objects := st.objects ++ [created], zIndexCounter := z }
        broadcasts := [.objCreate created]
        dbWrites := [.insertRow pending]
        returned := some created }
    | none =>
      { storeDuringPersistence := st.objects
        state := { st with zIndexCounter := z }
        broadcasts := []
        dbWrites := [.insertRow pending]
        returned := none }

/-- State, broadcasts and persistence writes produced by one operation. -/
structure OpRun where
  state : ClientState
  broadcasts : List BEvent
  dbWrites : List DbWrite
deriving DecidableEq, Repr

/-- `updateObject` from `useBoard`: optimistic local spread-merge, broadcast
of `{ id, ...updates }`, then a persistence update carrying
`{...updates, updated_by: user?.id}`.  A persistence error is only logged. -/
def updateObject (st : ClientState) (user : Option String) (i : String)
    (p : ObjPatch) : OpRun :=
  { state :=
      { st with
        objects := st.objects.map (fun o => if o.id == i then applyPatch o p else o) }
    broadcasts := [.objUpdate i p]
    dbWrites := [.updateRow i { p with updated_by := user }] }

/-- `deleteObject` from `useBoard`: optimistic local filter, broadcast of
`{ id }`, then a persistence delete.  A persistence error is only logged. -/
def deleteObject (st : ClientState) (i : String) : OpRun :=
  { state := { st with objects := st.objects.filter (fun o => o.id != i) }
    broadcasts := [.objDelete i]
    dbWrites := [.deleteRow i] }

/-- Result items returned by the AI command endpoint. -/
inductive AiAction where
  | create
  | update
  | delete
deriving DecidableEq, Repr

/-- One `{ action, object }` pair from the AI command response. -/
structure AiResult where
  action : AiAction
  object : BoardObject
deriving DecidableEq, Repr

/-- One iteration of the `applyAiResults` loop: local state change plus the
broadcasts it sends.  The create branch bumps the counter like the inbound
`object-create` handler and dedup-appends; the update branch spread-merges the
full object into the matching element and broadcasts the full object; the
delete branch filters and broadcasts `{ id }`.  No persistence write is made
in any branch (the API has already written to the row store). -/
def applyAiResultOne (st : ClientState) (r : AiResult) : ClientState × List BEvent :=
  match r.action with
  | .create =>
    ({ objects := applyObjectCreate st.objects r.object
       zIndexCounter := inboundCreateCounter st.zIndexCounter r.object },
     [.objCreate r.object])
  | .update =>
    ({ st with
       objects := st.objects.map
         (fun o => if o.id == r.object.id then applyPatch o (toPatch r.object) else o) },
     [.objUpdate r.object.id (toPatch r.object)])
  | .delete =>
    ({ st with objects := st.objects.filter (fun o => o.id != r.object.id) },
     [.objDelete r.object.id])

/-- One iteration of the `applyAiResults` loop threaded through the
accumulated run: state change and broadcasts from `applyAiResultOne`, with no
persistence write. -/
def applyAiStep (acc : OpRun) (r : AiResult) : OpRun :=
  { state := (applyAiResultOne acc.state r).1
    broadcasts := acc.broadcasts ++ (applyAiResultOne acc.state r).2
    dbWrites := acc.dbWrites }

/-- `applyAiResults` from `useBoard`: fold the result list through
`applyAiStep`, collecting broadcasts; it issues no persistence writes. -/
def applyAiResults (st : ClientState) (rs : List AiResult) : OpRun :=
  rs.foldl applyAiStep { state := st, broadcasts := [], dbWrites := [] }

/-! Client-level event trace for the stack-order invariant: local creates
interleaved with loads and inbound creates. -/

/-- Events affecting the `(objects, zIndexCounter)` pair that the stack-order
claim ranges over. -/
inductive ClientEvent where
  | load (data : Store)
  | inboundCreate (o : BoardObject)
  | localCreate (boardId : String) (inp : CreateInput) (user : String)
      (assignedId : String)
deriving DecidableEq, Repr

/-- State transition of one client event.  Loads replace the store and
re-seed the counter; inbound creates go through the broadcast handler; local
creates are successful `createObject` calls. -/
def clientStep (st : ClientState) (e : ClientEvent) : ClientState :=
  match e with
  | .load data => loadObjects st (some data)
  | .inboundCreate o =>
    { objects := applyObjectCreate st.objects o
      zIndexCounter := inboundCreateCounter st.zIndexCounter o }
  | .localCreate bid inp user aid =>
    (createObject bid st inp (some user) (some aid)).state

/-- Run a sequence of client events. -/
def clientRun (st : ClientState) (es : List ClientEvent) : ClientState :=
  es.foldl clientStep st

/-- All states a client passes through along an event sequence, starting one
included. -/
def statesAlong (st : ClientState) : List ClientEvent → List ClientState
  | [] => [st]
  | e :: es => st :: statesAlong (clientStep st e) es

/-- Every `z_index` the client has seen in its store at any point along the
trace. -/
def knownZAlong (st : ClientState) (es : List ClientEvent) : List Int :=
  ((statesAlong st es).map (fun s => s.objects.map (fun o => o.z_index))).flatten

/-- Counter invariant: the z-index counter dominates every `z_index` in the
current store. -/
def Dominates (st : ClientState) : Prop :=
  ∀ o ∈ st.objects, o.z_index ≤ st.zIndexCounter

/-- Event sequences without any load (no counter re-seeding). -/
def loadFree (es : List ClientEvent) : Prop :=
  ∀ e ∈ es, ∀ data, e ≠ ClientEvent.load data

/-! Geometry layer of `Board.tsx`: frame containment, locked-frame content
collection, and the multi-drag session. -/

/-- Snapshot position. -/
abbrev Pos := Rat × Rat

/-- The `startPositions` JS `Map`, as an insertion-ordered association list. -/
abbrev PosMap := List (String × Pos)

/-- JS `Map.has`. -/
def posHas (m : PosMap) (k : String) : Bool :=
  m.any (fun e => e.1 == k)

/-- JS `Map.set`: update in place when the key exists, else append. -/
def posSet (m : PosMap) (k : String) (v : Pos) : PosMap :=
  if posHas m k then m.map (fun e => if e.1 == k then (k, v) else e)
  else m ++ [(k, v)]

/-- JS `Map.get`. -/
def posGet (m : PosMap) (k : String) : Option Pos :=
  (m.find? (fun e => e.1 == k)).map Prod.snd

/-- `isInsideFrame` from `Board.tsx`: does the object's geometric center lie
within the frame's bounds?  A circle's `x,y` is already its center; for other
kinds the center is `x + width/2, y + height/2`. -/
def isInsideFrame (o frame : BoardObject) : Bool :=
  let cx := if o.type == "circle" then o.x else o.x + o.width / 2
  let cy := if o.type == "circle" then o.y else o.y + o.height / 2
  decide (frame.x ≤ cx) && decide (cx ≤ frame.x + frame.width) &&
    decide (frame.y ≤ cy) && decide (cy ≤ frame.y + frame.height)

/-- Body of `collectLockedFrameContents`: the `for (const obj of allObjects)`
loop, with `pending` the objects the loop has not yet visited.  Skip an object
that is already collected, a connector, or the frame itself; otherwise, when
its center lies inside the frame, record its position and, if it is a locked
frame, recurse over all objects before continuing the loop.  `fuel` bounds
only the nesting depth of that recursion: each nested call is made right
after a previously uncollected id is added, a chain of nested calls of depth
d therefore needs d distinct additions out of at most `allObjects.length`
collectable objects, so with entry fuel `allObjects.length + 1` the
fuel-exhausted fallback is unreachable and the function computes the
unbounded-recursion semantics of the source. -/
def collectGo : Nat → BoardObject → Store → List BoardObject → PosMap → PosMap
  | _, _, _, [], collected => collected
  | fuel, frame, allObjects, obj :: pending, collected =>
    if posHas collected obj.id || obj.type == "connector" || obj.id == frame.id then
      collectGo fuel frame allObjects pending collected
    else if isInsideFrame obj frame then
      if obj.type == "frame" && obj.properties_locked then
        match fuel with
        | 0 => collectGo 0 frame allObjects pending
            (posSet collected obj.id (obj.x, obj.y))
        | fuel' + 1 =>
          collectGo (fuel' + 1) frame allObjects pending
            (collectGo fuel' obj allObjects allObjects
              (posSet collected obj.id (obj.x, obj.y)))
      else
        collectGo fuel frame allObjects pending
          (posSet collected obj.id (obj.x, obj.y))
    else collectGo fuel frame allObjects pending collected
termination_by fuel _ _ pending _ => (fuel, pending.length)

/-- `collectLockedFrameContents` from `Board.tsx`: for each object that is not
yet collected, not a connector and not the frame itself, collect it when its
center is inside the frame, recursing into locked nested frames. -/
def collectLockedFrameContents (frame : BoardObject) (allObjects : Store)
    (collected : PosMap) : PosMap :=
  collectGo (allObjects.length + 1) frame allObjects allObjects collected

/-- The "check locked frames in multi-selection" loop of
`handleObjectDragMove`: `for (const [selId] of startPositions)` iterates the
map by position, visiting entries appended during the iteration; for each
non-primary entry naming a locked frame, collect that frame's contents.  The
map grows by at most `objects.length` entries, so the fuel below is exact. -/
def checkSelLockedGo : Nat → String → Store → PosMap → Nat → PosMap
  | 0, _, _, sp, _ => sp
  | fuel + 1, primaryId, objects, sp, i =>
    match sp[i]? with
    | none => sp
    | some e =>
      let sp' :=
        if e.1 == primaryId then sp
        else
          match objects.find? (fun o => o.id == e.1) with
          | some o =>
            if o.type == "frame" && o.properties_locked then
              collectLockedFrameContents o objects sp
            else sp
          | none => sp
      checkSelLockedGo fuel primaryId objects sp' (i + 1)

/-- Entry point of the selection-scan loop. -/
def checkSelLocked (primaryId : String) (objects : Store) (sp : PosMap) : PosMap :=
  checkSelLockedGo (sp.length + objects.length + 1) primaryId objects sp 0

/-- The `multiDragRef` session: primary object id plus the start-position
snapshot of every participant. -/
structure DragSession where
  draggedId : String
  startPositions : PosMap
deriving DecidableEq, Repr

/-- Session initialisation on the first move event of a gesture
(`handleObjectDragMove`, init block).  `selectedIds` lists the members of the
selection set.  A session is created only when more than one object is
involved. -/
def initDragSession (primaryId : String) (selectedIds : List String)
    (objects : Store) : Option DragSession :=
  let sp : PosMap := []
  let sp :=
    if selectedIds.contains primaryId && selectedIds.length > 1 then
      objects.foldl
        (fun m o => if selectedIds.contains o.id then posSet m o.id (o.x, o.y) else m)
        sp
    else sp
  let sp :=
    match objects.find? (fun o => o.id == primaryId) with
    | some dragged =>
      if dragged.type == "frame" && dragged.properties_locked then
        let sp :=
          if posHas sp primaryId then sp
          else posSet sp primaryId (dragged.x, dragged.y)
        collectLockedFrameContents dragged objects sp
      else sp
    | none => sp
  let sp := checkSelLocked primaryId objects sp
  if sp.length > 1 then
    let sp :=
      if posHas sp primaryId then sp
      else
        match objects.find? (fun o => o.id == primaryId) with
        | some o => posSet sp primaryId (o.x, o.y)
        | none => sp
    some { draggedId := primaryId, startPositions := sp }
  else none

/-- Session component of `handleObjectDragMove`: an existing session is kept
unchanged (the init block runs only when `multiDragRef` is null); otherwise
the session is initialised from the current selection and store.  The
broadcast of the primary position and the render-only repositioning of
sibling Konva nodes touch neither the session nor the store. -/
def dragMoveSession (session : Option DragSession) (selectedIds : List String)
    (objects : Store) (primaryId : String) : Option DragSession :=
  match session with
  | some m => some m
  | none => initDragSession primaryId selectedIds objects

/-- Patch carrying exactly a final position, the `{x, y}` update issued at
gesture end. -/
def posPatch (px py : Rat) : ObjPatch :=
  { x := some px, y := some py }

/-- `handleObjectUpdate` from `Board.tsx`: always emit the primary update;
when a session exists for this primary and the update is a pure move (`x` and
`y` present, `width` absent), also emit `snapshot + delta` updates for every
other participant, where `delta` is the primary's final position minus its
snapshot, and clear the session.  Returns the emitted `(id, updates)` calls in
order and the session left behind. -/
def handleObjectUpdate (session : Option DragSession) (i : String)
    (u : ObjPatch) : List (String × ObjPatch) × Option DragSession :=
  match session with
  | none => ([(i, u)], none)
  | some m =>
    if m.draggedId == i && u.x.isSome && u.y.isSome && u.width.isNone then
      let rest :=
        match posGet m.startPositions i, u.x, u.y with
        | some s, some ux, some uy =>
          (m.startPositions.filter (fun e => e.1 != i)).map
            (fun e => (e.1, posPatch (e.2.1 + (ux - s.1)) (e.2.2 + (uy - s.2))))
        | _, _, _ => []
      ((i, u) :: rest, none)
    else ([(i, u)], some m)

/-! Connection lifecycle: the `channel.subscribe` status callback of
`useBoard`. -/

/-- Channel status values the subscribe callback distinguishes. -/
inductive SubStatus where
  | subscribed
  | channelError
  | timedOut
  | closed
  | other
deriving DecidableEq, Repr

/-- Connection-relevant client state: store, counter, the `connected` flag and
the `hasBeenConnected` ref. -/
structure ConnState where
  objects : Store
  zIndexCounter : Int
  connected : Bool
  hasBeenConnected : Bool
deriving DecidableEq, Repr

/-- The `channel.subscribe` callback of `useBoard`: on `SUBSCRIBED`, set
`connected`, and when the client had already been connected once reload the
board-scoped object set from durable storage (replacing the store wholesale
and re-seeding the counter; a failed read leaves the store alone); then mark
`hasBeenConnected`.  Error statuses only clear `connected`. -/
def onSubscribeStatus (st : ConnState) (status : SubStatus)
    (dbRead : Option Store) : ConnState :=
  match status with
  | .subscribed =>
    let st := { st with connected := true }
    let st :=
      if st.hasBeenConnected then
        match dbRead with
        | some data =>
          { st with objects := data, zIndexCounter := seedZIndexCounter data }
        | none => st
      else st
    { st with hasBeenConnected := true }
  | .channelError => { st with connected := false }
  | .timedOut => { st with connected := false }
  | .closed => { st with connected := false }
  | .other => st

/-! Cursor throttle of `usePresence.ts`. -/

/-- `CURSOR_THROTTLE_MS` from `usePresence.ts`. -/
def CURSOR_THROTTLE_MS : Int := 50

/-- A `broadcastCursor` call: wall-clock time of the call and the cursor
coordinates it carries. -/
abbrev CursorCall := Int × Rat × Rat

/-- One `broadcastCursor` call, threading `(lastBroadcast, sent so far)`: a
call within the throttle interval of the previous accepted call returns
without sending; otherwise `lastBroadcast` is advanced to the call time and,
when the channel ref is non-null, the payload is sent. -/
def cursorStep (channelOpen : Bool) (acc : Int × List CursorCall)
    (c : CursorCall) : Int × List CursorCall :=
  if c.1 - acc.1 < CURSOR_THROTTLE_MS then acc
  else if channelOpen then (c.1, acc.2 ++ [c])
  else (c.1, acc.2)

/-- Fold all `broadcastCursor` calls of a session through `cursorStep`,
returning the final `lastBroadcast` and the sent payloads in order. -/
def runBroadcastCursor (last : Int) (channelOpen : Bool)
    (calls : List CursorCall) : Int × List CursorCall :=
  calls.foldl (cursorStep channelOpen) (last, [])

/-- Modelled from the spec: a call is accepted and sent exactly when at least
the minimum interval has elapsed since the previously accepted call; earlier
calls are dropped, never queued. -/
def specThrottle (lastAccepted : Int) : List CursorCall → List CursorCall
  | [] => []
  | c :: rest =>
    if CURSOR_THROTTLE_MS ≤ c.1 - lastAccepted then c :: specThrottle c.1 rest
    else specThrottle lastAccepted rest

/-- Boolean load discriminator for `ClientEvent`. -/
def ClientEvent.isLoad : ClientEvent → Bool
  | .load _ => true
  | _ => false

/-! Concrete fixtures used by counterexamples and witnesses. -/

/-- Concrete board object. -/
def mkObj (i ty : String) (px py w h : Rat) (z : Int) (lk : Bool) : BoardObject :=
  { id := i, board_id := "b1", type := ty, x := px, y := py, width := w,
    height := h, rotation := 0, z_index := z, properties_locked := lk,
    created_by := "u1", updated_by := "u1" }

/-- Locked frame A at (0,0) with bounds 100×100. -/
def cexA : BoardObject := mkObj "A" "frame" 0 0 100 100 1 true

/-- Unlocked frame B at (10,10) with bounds 40×40; its center (30,30) lies
inside A. -/
def cexB : BoardObject := mkObj "B" "frame" 10 10 40 40 2 false

/-- Sticky note C at (20,20), 10×10; its center (25,25) lies inside B — and
also inside A. -/
def cexC : BoardObject := mkObj "C" "sticky_note" 20 20 10 10 3 false

/-- Create input `{type:'sticky_note', x:10, y:10}`. -/
def noteInput : CreateInput :=
  { type := "sticky_note", x := some 10, y := some 10 }

/-- Object as returned in an AI create result (server-assigned id and
`z_index`). -/
def aiNote : BoardObject := mkObj "ai1" "sticky_note" 10 10 150 150 5 false

/-- The same inputs presented to the direct `createObject` path. -/
def aiNoteInput : CreateInput :=
  { type := "sticky_note", x := some 10, y := some 10, width := some 150,
    height := some 150 }

/-- Peer-created object with `z_index` 10. -/
def objZ10 : BoardObject := mkObj "p" "sticky_note" 0 0 150 150 10 false

/-- Durably stored object with `z_index` 3. -/
def objZ3 : BoardObject := mkObj "q" "sticky_note" 0 0 150 150 3 false

/-- Client trace: a peer create with `z_index` 10 arrives, then a load whose
maximum `z_index` is 3 re-seeds the counter. -/
def c8Events : List ClientEvent :=
  [ClientEvent.inboundCreate objZ10, ClientEvent.load [objZ3]]

/-- Fresh client state: empty store, counter 0. -/
def emptyState : ClientState := { objects := [], zIndexCounter := 0 }

/-- A load-free client trace: an inbound create then a successful local
create. -/
def c8LoadFreeEvents : List ClientEvent :=
  [ClientEvent.inboundCreate objZ10,
   ClientEvent.localCreate "b1" noteInput "u1" "n2"]

/-- Drag session of the spec's three-object scenario: offsets (0,0), (20,0),
(0,20) from the primary. -/
def c5Session : DragSession :=
  { draggedId := "p1"
    startPositions := [("p1", (0, 0)), ("p2", (20, 0)), ("p3", (0, 20))] }

/-- Some intermediate move events of the primary during the gesture. -/
def c5Moves : List (String × Rat × Rat) :=
  [("p1", 10, 5), ("p1", 30, -10), ("p1", 44, -28)]

/-- Connection state of a client that has connected before (a reconnect is
pending). -/
def connStReconnect : ConnState :=
  { objects := [objZ10], zIndexCounter := 10, connected := false,
    hasBeenConnected := true }

/-- Connection state of a client connecting for the first time. -/
def connStFirst : ConnState :=
  { objects := [objZ10], zIndexCounter := 10, connected := false,
    hasBeenConnected := false }

end CollabBoard

namespace CollabBoard

/-! Claim theorems and their supporting lemmas. -/

/-- C1: the claim says every `create` call makes the created object visible in
the local store synchronously, before the asynchronous persistence write has
resolved.  The code does the opposite — `createObject` awaits the insert and
only then appends — contradicting the repository's own docs
(`docs/TESTING.md` §15/§20 describe append-then-insert).  Evaluating the model
at the failing input `create({type:'sticky_note',x:10,y:10})` on an empty
store: the store seen until the insert resolves is still empty, while the
completed call does add the object. -/
theorem createObject_not_visible_before_insert :
    (createObject "b1" { objects := [], zIndexCounter := 0 } noteInput
        (some "u1") (some "n1")).storeDuringPersistence = [] ∧
    (createObject "b1" { objects := [], zIndexCounter := 0 } noteInput
        (some "u1") (some "n1")).state.objects ≠ [] := by
  decide

/-- C2: the claim says a `create` whose persistence write fails still leaves
the created object in the local store (optimistic state retained).  In the
code the object is only ever appended after a successful insert, so a failed
insert leaves the store without the object — contradicting the repository's
own docs (`docs/TESTING.md` §15: failures are logged and local changes kept).
At the failing input (insert error on an empty store) the completed call
leaves the store empty, broadcasts nothing and returns `null`. -/
theorem createObject_insert_failure_store_unchanged :
    (createObject "b1" { objects := [], zIndexCounter := 0 } noteInput
        (some "u1") none).state.objects = [] ∧
    (createObject "b1" { objects := [], zIndexCounter := 0 } noteInput
        (some "u1") none).broadcasts = [] ∧
    (createObject "b1" { objects := [], zIndexCounter := 0 } noteInput
        (some "u1") none).returned = none := by
  decide

/-- C9: on a `SUBSCRIBED` transition with `hasBeenConnected` already set (a
reconnection), the store is replaced wholesale by the durable read, so it
matches durable storage exactly; on the first connection no reload happens and
the flag is set. -/
theorem reconnect_reloads_wholesale (st : ConnState) (db : Store) :
    (st.hasBeenConnected = true →
      (onSubscribeStatus st .subscribed (some db)).objects = db ∧
      (onSubscribeStatus st .subscribed (some db)).zIndexCounter
        = seedZIndexCounter db) ∧
    (st.hasBeenConnected = false →
      (onSubscribeStatus st .subscribed (some db)).objects = st.objects) ∧
    (onSubscribeStatus st .subscribed (some db)).hasBeenConnected = true := by
  refine ⟨fun h => ?_, fun h => ?_, ?_⟩
  · simp [onSubscribeStatus, h]
  · simp [onSubscribeStatus, h]
  · by_cases h : st.hasBeenConnected <;> simp [onSubscribeStatus, h]

/-- C9 witness: a reconnecting client replaces its store with the durable set;
a first-time client does not reload. -/
theorem reconnect_reloads_wholesale_witness :
    (onSubscribeStatus connStReconnect SubStatus.subscribed
        (some [objZ3])).objects = [objZ3] ∧
    (onSubscribeStatus connStFirst SubStatus.subscribed
        (some [objZ3])).objects = connStFirst.objects :=
  ⟨((reconnect_reloads_wholesale connStReconnect [objZ3]).1 rfl).1,
   (reconnect_reloads_wholesale connStFirst [objZ3]).2.1 rfl⟩

/-- Mapping a function that fixes every element of a list is the identity. -/
theorem map_eq_self_of_fix {α : Type} (l : List α) (f : α → α)
    (h : ∀ a ∈ l, f a = a) : l.map f = l := by
  conv_rhs => rw [← List.map_id l]
  exact List.map_congr_left h

/-- C7: the inbound `object-update`, `object-delete` and `object-move`
handlers are total functions (they cannot throw) and, for an id absent from
the store, each leaves the store exactly unchanged: the update and move maps
touch no element and the delete filter removes none. -/
theorem unknownId_inbound_events_noop (s : Store) (i : String)
    (h : s.any (fun o => o.id == i) = false) (p : ObjPatch) (mx my : Rat) :
    applyObjectUpdate s i p = s ∧ applyObjectDelete s i = s ∧
      applyObjectMove s i mx my = s := by
  rw [List.any_eq_false] at h
  refine ⟨?_, ?_, ?_⟩
  · refine map_eq_self_of_fix s _ fun o ho => ?_
    rw [if_neg]
    simpa using h o ho
  · refine List.filter_eq_self.mpr fun o ho => ?_
    simpa using h o ho
  · refine map_eq_self_of_fix s _ fun o ho => ?_
    rw [if_neg]
    simpa using h o ho

/-- C7 witness: applying the three events for the unknown id "zzz" to a
one-object store leaves it untouched. -/
theorem unknownId_inbound_events_noop_witness :
    applyObjectUpdate [cexA] "zzz" (posPatch 1 2) = [cexA] ∧
    applyObjectDelete [cexA] "zzz" = [cexA] ∧
    applyObjectMove [cexA] "zzz" 1 2 = [cexA] :=
  unknownId_inbound_events_noop [cexA] "zzz" (by decide) (posPatch 1 2) 1 2

/-- Ids are untouched by the inbound update handler. -/
theorem storeIds_applyObjectUpdate (s : Store) (i : String) (p : ObjPatch) :
    storeIds (applyObjectUpdate s i p) = storeIds s := by
  unfold storeIds applyObjectUpdate
  rw [List.map_map]
  refine List.map_congr_left fun o _ => ?_
  by_cases h : (o.id == i) = true
  · simp only [Function.comp_apply, if_pos h]
    rfl
  · simp only [Function.comp_apply, if_neg h]

/-- Ids are untouched by the inbound move handler. -/
theorem storeIds_applyObjectMove (s : Store) (i : String) (mx my : Rat) :
    storeIds (applyObjectMove s i mx my) = storeIds s := by
  unfold storeIds applyObjectMove
  rw [List.map_map]
  refine List.map_congr_left fun o _ => ?_
  by_cases h : (o.id == i) = true
  · simp only [Function.comp_apply, if_pos h]
  · simp only [Function.comp_apply, if_neg h]

/-- The delete handler's output ids form a sublist of the input ids. -/
theorem storeIds_applyObjectDelete_sublist (s : Store) (i : String) :
    (storeIds (applyObjectDelete s i)).Sublist (storeIds s) :=
  List.Sublist.map _ (List.filter_sublist s)

/-- Occurrence count of an id on a cons cell. -/
theorem countId_cons (o : BoardObject) (t : Store) (i : String) :
    countId (o :: t) i = (if o.id == i then 1 else 0) + countId t i := by
  by_cases h : (o.id == i) = true <;>
    simp [countId, List.filter_cons, h, Nat.add_comm]

/-- A store with distinct ids holds at most one object per id. -/
theorem countId_le_one (s : Store) (h : (storeIds s).Nodup) (i : String) :
    countId s i ≤ 1 := by
  induction s with
  | nil => simp [countId]
  | cons o t ih =>
    rw [storeIds, List.map_cons, List.nodup_cons] at h
    rw [countId_cons]
    by_cases ho : (o.id == i) = true
    · have hit : o.id = i := by simpa using ho
      have hz : countId t i = 0 := by
        rw [countId, List.length_eq_zero, List.filter_eq_nil_iff]
        intro a ha hai
        apply h.1
        have hae : a.id = i := by simpa using hai
        rw [hit, ← hae]
        exact List.mem_map_of_mem _ ha
      simp [ho, hz]
    · have hf : (o.id == i) = false := by simpa using ho
      simpa [hf] using ih h.2

/-- An id reported absent by `any` has count zero. -/
theorem countId_eq_zero (s : Store) (i : String)
    (h : s.any (fun o => o.id == i) = false) : countId s i = 0 := by
  rw [List.any_eq_false] at h
  rw [countId, List.length_eq_zero, List.filter_eq_nil_iff]
  exact fun a ha hai => h a ha hai

/-- An id reported present by `any` has positive count. -/
theorem countId_pos (s : Store) (i : String)
    (h : s.any (fun o => o.id == i) = true) : 0 < countId s i := by
  rw [List.any_eq_true] at h
  obtain ⟨o, ho, hoi⟩ := h
  have hm : o ∈ s.filter (fun o => o.id == i) := List.mem_filter.mpr ⟨ho, hoi⟩
  rw [countId, List.length_pos]
  exact List.ne_nil_of_mem hm

/-- After the inbound create handler runs on a duplicate-free store, the
created id occurs exactly once. -/
theorem countId_applyObjectCreate (s : Store) (h : (storeIds s).Nodup)
    (n : BoardObject) : countId (applyObjectCreate s n) n.id = 1 := by
  unfold applyObjectCreate
  by_cases hany : s.any (fun o => o.id == n.id) = true
  · rw [if_pos hany]
    have h1 := countId_le_one s h n.id
    have h2 := countId_pos s n.id hany
    omega
  · rw [if_neg hany]
    have h0 : countId s n.id = 0 := countId_eq_zero s n.id (by simpa using hany)
    rw [countId, List.filter_append, List.length_append]
    have hs : (s.filter (fun o => o.id == n.id)).length = 0 := h0
    rw [hs]
    simp

/-- The inbound create handler preserves distinctness of ids. -/
theorem nodup_applyObjectCreate (s : Store) (h : (storeIds s).Nodup)
    (n : BoardObject) : (storeIds (applyObjectCreate s n)).Nodup := by
  unfold applyObjectCreate
  by_cases hany : s.any (fun o => o.id == n.id) = true
  · rw [if_pos hany]; exact h
  · rw [if_neg hany]
    have hany' : s.any (fun o => o.id == n.id) = false := by simpa using hany
    rw [List.any_eq_false] at hany'
    rw [storeIds, List.map_append]
    refine List.Nodup.append h (by simp) ?_
    intro a ha hb
    rcases List.mem_map.mp ha with ⟨o, ho, rfl⟩
    have hoe : o.id = n.id := by simpa using hb
    exact hany' o ho (by simpa using hoe)

/-- Every inbound event preserves distinctness of ids. -/
theorem nodup_applyInEvent (s : Store) (h : (storeIds s).Nodup) (e : InEvent) :
    (storeIds (applyInEvent s e)).Nodup := by
  cases e with
  | create o => exact nodup_applyObjectCreate s h o
  | update i p => rw [applyInEvent, storeIds_applyObjectUpdate]; exact h
  | delete i => exact (storeIds_applyObjectDelete_sublist s i).nodup h
  | move i mx my => rw [applyInEvent, storeIds_applyObjectMove]; exact h

/-- Any sequence of inbound events preserves distinctness of ids. -/
theorem nodup_applyInEvents (s : Store) (h : (storeIds s).Nodup)
    (es : List InEvent) : (storeIds (applyInEvents s es)).Nodup := by
  induction es generalizing s with
  | nil => exact h
  | cons e es ih => exact ih _ (nodup_applyInEvent s h e)

/-- C6: starting from any store with distinct ids, delivering the same
`object-create` event twice — with an arbitrary sequence of other inbound
events between the two deliveries — leaves exactly one object with that id:
ids already present are never re-added, and no handler introduces a
duplicate. -/
theorem objectCreate_idempotent (s : Store) (h : (storeIds s).Nodup)
    (n : BoardObject) (es : List InEvent) :
    countId (applyInEvent (applyInEvents (applyInEvent s (.create n)) es)
        (.create n)) n.id = 1 := by
  have h1 : (storeIds (applyInEvent s (.create n))).Nodup :=
    nodup_applyInEvent s h (.create n)
  have h2 := nodup_applyInEvents _ h1 es
  exact countId_applyObjectCreate _ h2 n

/-- C6 witness: the create event for object A delivered twice around an
unrelated delete leaves exactly one copy of A. -/
theorem objectCreate_idempotent_witness :
    countId (applyInEvent (applyInEvents (applyInEvent [cexB] (.create cexA))
        [InEvent.delete "B", InEvent.move "A" 5 5]) (.create cexA))
      cexA.id = 1 :=
  objectCreate_idempotent [cexB] (by decide) cexA
    [InEvent.delete "B", InEvent.move "A" 5 5]

/-- The cursor-throttle fold over an open channel sends, beyond what was
already sent, exactly the spec-side greedy selection. -/
theorem runBroadcastCursor_eq_specThrottle_aux (calls : List CursorCall)
    (last : Int) (sent : List CursorCall) :
    (calls.foldl (cursorStep true) (last, sent)).2 =
      sent ++ specThrottle last calls := by
  induction calls generalizing last sent with
  | nil => simp [specThrottle]
  | cons c rest ih =>
    by_cases h : c.1 - last < CURSOR_THROTTLE_MS
    · have hns : ¬ CURSOR_THROTTLE_MS ≤ c.1 - last := by omega
      simp only [List.foldl_cons, cursorStep, if_pos h, specThrottle,
        if_neg hns]
      exact ih last sent
    · have hs : CURSOR_THROTTLE_MS ≤ c.1 - last := by omega
      simp only [List.foldl_cons, cursorStep, if_pos hs, if_neg h, if_true,
        specThrottle]
      rw [ih c.1 (sent ++ [c])]
      simp

/-- Every call the spec-side throttle accepts lies at least one full interval
beyond the threshold in force when it was examined. -/
theorem specThrottle_ge (last : Int) (calls : List CursorCall) :
    ∀ c ∈ specThrottle last calls, last + CURSOR_THROTTLE_MS ≤ c.1 := by
  induction calls generalizing last with
  | nil => simp [specThrottle]
  | cons c rest ih =>
    by_cases h : CURSOR_THROTTLE_MS ≤ c.1 - last
    · simp only [specThrottle, if_pos h, List.mem_cons]
      have hT : CURSOR_THROTTLE_MS = 50 := rfl
      rintro d (rfl | hd)
      · omega
      · have := ih c.1 d hd
        omega
    · simp only [specThrottle, if_neg h]
      exact ih last

/-- The spec-side throttle only selects actual calls, in order. -/
theorem specThrottle_sublist (last : Int) (calls : List CursorCall) :
    (specThrottle last calls).Sublist calls := by
  induction calls generalizing last with
  | nil => simp [specThrottle]
  | cons c rest ih =>
    by_cases h : CURSOR_THROTTLE_MS ≤ c.1 - last
    · simpa [specThrottle, if_pos h] using List.Sublist.cons₂ c (ih c.1)
    · simpa [specThrottle, if_neg h] using (ih last).cons c

/-- Consecutive calls accepted by the spec-side throttle are at least one
full interval apart. -/
theorem specThrottle_chain (last : Int) (calls : List CursorCall) :
    List.Chain' (fun a b => a.1 + CURSOR_THROTTLE_MS ≤ b.1)
      (specThrottle last calls) := by
  induction calls generalizing last with
  | nil => simp [specThrottle]
  | cons c rest ih =>
    by_cases h : CURSOR_THROTTLE_MS ≤ c.1 - last
    · simp only [specThrottle, if_pos h]
      rw [List.chain'_cons']
      refine ⟨fun b hb => ?_, ih c.1⟩
      exact specThrottle_ge c.1 rest b (List.mem_of_mem_head? hb)
    · simp only [specThrottle, if_neg h]
      exact ih last

/-- C10: with the channel open, the sequence of cursor payloads actually sent
by the throttled `broadcastCursor` is exactly the greedy spec-side selection
(a call is sent iff at least `CURSOR_THROTTLE_MS` has elapsed since the
previously accepted call, with dropped calls never queued); the sent calls are
a subsequence of the made calls, and two consecutive sends are never less
than the interval apart. -/
theorem broadcastCursor_throttle (last : Int) (calls : List CursorCall) :
    (runBroadcastCursor last true calls).2 = specThrottle last calls ∧
    (specThrottle last calls).Sublist calls ∧
    List.Chain' (fun a b => a.1 + CURSOR_THROTTLE_MS ≤ b.1)
      (specThrottle last calls) := by
  refine ⟨?_, specThrottle_sublist last calls, specThrottle_chain last calls⟩
  have h := runBroadcastCursor_eq_specThrottle_aux calls last []
  simpa [runBroadcastCursor] using h

/-- C3 counterexample: the claim asserts that `applyAiResults` produces
exactly the same store state, broadcasts and persistence writes as the direct
paths on the same inputs.  For a single AI create result the AI path issues no
persistence write while the direct `createObject` issues an insert, and the
resulting states differ (the direct path recomputes `z_index` from the local
counter and appends unconditionally). -/
theorem applyAiResults_not_direct_equivalent :
    (applyAiResults { objects := [], zIndexCounter := 0 }
        [{ action := .create, object := aiNote }]).dbWrites = [] ∧
    (createObject "b1" { objects := [], zIndexCounter := 0 } aiNoteInput
        (some "u1") (some "ai1")).dbWrites ≠ [] ∧
    (applyAiResults { objects := [], zIndexCounter := 0 }
        [{ action := .create, object := aiNote }]).state ≠
      (createObject "b1" { objects := [], zIndexCounter := 0 } aiNoteInput
        (some "u1") (some "ai1")).state := by
  decide

/-- Spreading a full object over an element that already carries its id gives
the same result whether or not the id field is stripped first (the inbound
handler strips it; the `applyAiResults` local merge does not). -/
theorem applyPatch_toPatch_strip (t o : BoardObject) (h : t.id = o.id) :
    applyPatch t (toPatch o) = applyPatch t { toPatch o with id := none } := by
  simp [applyPatch, toPatch, h]

/-- The `applyAiResults` fold never adds a persistence write to the
accumulator. -/
theorem applyAiFold_dbWrites (rs : List AiResult) (acc : OpRun) :
    (rs.foldl applyAiStep acc).dbWrites = acc.dbWrites := by
  induction rs generalizing acc with
  | nil => rfl
  | cons r rest ih => exact ih (applyAiStep acc r)

/-- C3 amended: `applyAiResults` never issues a persistence write (the API
already persisted), unlike the direct paths whose runs each carry one; its
delete and update actions perform the same local store mutation and broadcast
as the direct `deleteObject`/`updateObject` on the same inputs, and its store
mutation coincides with the inbound broadcast handlers for all three actions
(for create this means dedup-append with the server-assigned `z_index` and an
inbound-style counter bump, not the direct `createObject` path). -/
theorem applyAiResults_inbound_semantics_no_writes (st : ClientState)
    (o : BoardObject) (user : Option String) (rs : List AiResult) :
    (applyAiResults st rs).dbWrites = [] ∧
    (applyAiResults st [{ action := .create, object := o }]).state.objects
      = applyObjectCreate st.objects o ∧
    (applyAiResults st [{ action := .create, object := o }]).state.zIndexCounter
      = inboundCreateCounter st.zIndexCounter o ∧
    (applyAiResults st [{ action := .create, object := o }]).broadcasts
      = [BEvent.objCreate o] ∧
    (applyAiResults st [{ action := .update, object := o }]).state.objects
      = applyObjectUpdate st.objects o.id (toPatch o) ∧
    (applyAiResults st [{ action := .update, object := o }]).state
      = (updateObject st user o.id (toPatch o)).state ∧
    (applyAiResults st [{ action := .update, object := o }]).broadcasts
      = (updateObject st user o.id (toPatch o)).broadcasts ∧
    (applyAiResults st [{ action := .delete, object := o }]).state
      = (deleteObject st o.id).state ∧
    (applyAiResults st [{ action := .delete, object := o }]).broadcasts
      = (deleteObject st o.id).broadcasts ∧
    (updateObject st user o.id (toPatch o)).dbWrites ≠ [] ∧
    (deleteObject st o.id).dbWrites ≠ [] := by
  refine ⟨applyAiFold_dbWrites rs _, ?_, rfl, rfl, ?_, rfl, rfl, rfl, rfl,
    by simp [updateObject], by simp [deleteObject]⟩
  · rfl
  · show st.objects.map
        (fun t => if t.id == o.id then applyPatch t (toPatch o) else t)
      = applyObjectUpdate st.objects o.id (toPatch o)
    unfold applyObjectUpdate
    refine List.map_congr_left fun t _ => ?_
    by_cases h : (t.id == o.id) = true
    · rw [if_pos h, if_pos h]
      exact applyPatch_toPatch_strip t o (by simpa using h)
    · rw [if_neg h, if_neg h]

/-- A max-fold over z-indices never drops below its seed. -/
theorem le_foldl_max (l : Store) (a : Int) :
    a ≤ l.foldl (fun m o => max m o.z_index) a := by
  induction l generalizing a with
  | nil => exact le_refl a
  | cons o t ih => exact le_trans (le_max_left a o.z_index) (ih _)

/-- A max-fold over z-indices dominates every listed z-index. -/
theorem mem_le_foldl_max (l : Store) (a : Int) :
    ∀ o ∈ l, o.z_index ≤ l.foldl (fun m o => max m o.z_index) a := by
  induction l generalizing a with
  | nil => intro o ho; cases ho
  | cons h t ih =>
    intro o ho
    rcases List.mem_cons.mp ho with rfl | hmem
    · exact le_trans (le_max_right a o.z_index) (le_foldl_max t _)
    · exact ih _ o hmem

/-- The counter stays on or above the inbound object's z-index and the old
counter after an inbound create. -/
theorem inboundCreateCounter_ge (c : Int) (n : BoardObject) :
    c ≤ inboundCreateCounter c n ∧ n.z_index ≤ inboundCreateCounter c n := by
  unfold inboundCreateCounter
  by_cases h : n.z_index > c
  · rw [if_pos h]; omega
  · rw [if_neg h]; omega

/-- Every client event preserves counter dominance over the store. -/
theorem dominates_clientStep (st : ClientState) (h : Dominates st)
    (e : ClientEvent) : Dominates (clientStep st e) := by
  cases e with
  | load data =>
    intro o ho
    exact mem_le_foldl_max data 0 o ho
  | inboundCreate n =>
    intro o ho
    have hge := inboundCreateCounter_ge st.zIndexCounter n
    have hobj : o ∈ applyObjectCreate st.objects n := ho
    unfold applyObjectCreate at hobj
    by_cases hany : st.objects.any (fun t => t.id == n.id) = true
    · rw [if_pos hany] at hobj
      exact le_trans (h o hobj) hge.1
    · rw [if_neg hany] at hobj
      rcases List.mem_append.mp hobj with hmem | hn
      · exact le_trans (h o hmem) hge.1
      · have : o = n := by simpa using hn
        exact this ▸ hge.2
  | localCreate bid inp user aid =>
    intro o ho
    rcases List.mem_append.mp ho with hmem | hn
    · refine le_trans (h o hmem) ?_
      show st.zIndexCounter ≤ st.zIndexCounter + 1
      omega
    · have : o = { mkNewObject bid inp user (st.zIndexCounter + 1) with
          id := aid } := by simpa using hn
      subst this
      exact le_refl _

/-- Without loads the counter never decreases across one event. -/
theorem counter_mono_step (st : ClientState) (e : ClientEvent)
    (he : e.isLoad = false) :
    st.zIndexCounter ≤ (clientStep st e).zIndexCounter := by
  cases e with
  | load data => cases he
  | inboundCreate n => exact (inboundCreateCounter_ge st.zIndexCounter n).1
  | localCreate bid inp user aid =>
    show st.zIndexCounter ≤ st.zIndexCounter + 1
    omega

/-- Without loads the counter never decreases across a run. -/
theorem counter_mono_run (st : ClientState) (es : List ClientEvent)
    (hl : ∀ e ∈ es, e.isLoad = false) :
    st.zIndexCounter ≤ (clientRun st es).zIndexCounter := by
  induction es generalizing st with
  | nil => exact le_refl _
  | cons e es ih =>
    refine le_trans (counter_mono_step st e (hl e (List.mem_cons_self e es))) ?_
    exact ih (clientStep st e) fun d hd => hl d (List.mem_cons_of_mem e hd)

/-- Along a load-free run from a dominated state, every z-index ever present
in the store is bounded by the final counter. -/
theorem knownZ_le_run_counter (st : ClientState) (h : Dominates st)
    (es : List ClientEvent) (hl : ∀ e ∈ es, e.isLoad = false) :
    ∀ z ∈ knownZAlong st es, z ≤ (clientRun st es).zIndexCounter := by
  induction es generalizing st with
  | nil =>
    intro z hz
    simp only [knownZAlong, statesAlong, List.map_cons, List.map_nil,
      List.flatten] at hz
    simp at hz
    rcases hz with ⟨o, ho, rfl⟩
    exact h o ho
  | cons e es ih =>
    intro z hz
    have hsplit : knownZAlong st (e :: es)
        = st.objects.map (fun o => o.z_index) ++ knownZAlong (clientStep st e) es := by
      simp [knownZAlong, statesAlong]
    rw [hsplit] at hz
    rcases List.mem_append.mp hz with hhead | htail
    · rcases List.mem_map.mp hhead with ⟨o, ho, rfl⟩
      refine le_trans (h o ho) ?_
      refine le_trans (counter_mono_step st e (hl e (List.mem_cons_self e es))) ?_
      exact counter_mono_run (clientStep st e) es
        fun d hd => hl d (List.mem_cons_of_mem e hd)
    · exact ih (clientStep st e) (dominates_clientStep st h e)
        (fun d hd => hl d (List.mem_cons_of_mem e hd)) z htail

/-- C8 counterexample: the claim says each locally created object's `z_index`
strictly exceeds every z-index previously known to the client, across loads
and inbound creates.  After an inbound create with `z_index` 10 and a load
whose maximum is 3 (which re-seeds the counter downwards), the next local
create gets `z_index` 4, not greater than the previously known 10. -/
theorem stackOrder_not_monotonic_across_loads :
    (10 : Int) ∈ knownZAlong emptyState c8Events ∧
    ((createObject "b1" (clientRun emptyState c8Events) noteInput (some "u1")
        (some "n1")).returned.map (fun o => o.z_index) = some 4) ∧
    ¬ ((4 : Int) > 10) := by
  decide

/-- C8 amended: the counter is re-seeded from the maximum z-index of each
load, and between loads the guarantee holds: from any state whose counter
dominates its store, after any load-free sequence of inbound and local
creates, the next successful local create receives a `z_index` strictly
greater than every z-index the client has seen in its store since that
state. -/
theorem stackOrder_monotonic_between_loads (st : ClientState)
    (h : Dominates st) (es : List ClientEvent)
    (hl : ∀ e ∈ es, e.isLoad = false) (bid : String) (inp : CreateInput)
    (user aid : String) :
    (∀ data, (clientStep st (.load data)).zIndexCounter
      = seedZIndexCounter data) ∧
    ((createObject bid (clientRun st es) inp (some user) (some aid)).returned.map
        (fun o => o.z_index) = some ((clientRun st es).zIndexCounter + 1)) ∧
    (∀ z ∈ knownZAlong st es, z < (clientRun st es).zIndexCounter + 1) := by
  refine ⟨fun data => rfl, rfl, fun z hz => ?_⟩
  have := knownZ_le_run_counter st h es hl z hz
  omega

/-- C8 witness: from a fresh client, after an inbound create of z-index 10
and a successful local create, the next local create strictly exceeds every
z-index seen. -/
theorem stackOrder_monotonic_between_loads_witness :
    (∀ data, (clientStep emptyState (.load data)).zIndexCounter
      = seedZIndexCounter data) ∧
    ((createObject "b1" (clientRun emptyState c8LoadFreeEvents) noteInput
        (some "u1") (some "n3")).returned.map (fun o => o.z_index)
      = some ((clientRun emptyState c8LoadFreeEvents).zIndexCounter + 1)) ∧
    (∀ z ∈ knownZAlong emptyState c8LoadFreeEvents,
      z < (clientRun emptyState c8LoadFreeEvents).zIndexCounter + 1) :=
  stackOrder_monotonic_between_loads emptyState (fun o ho => by cases ho)
    c8LoadFreeEvents (by decide) "b1" noteInput "u1" "n3"


/-- C5 support: once a session exists, further move events leave it unchanged
(the init block runs only when `multiDragRef` is null and the sibling motion
is render-only). -/
theorem dragMoveSession_foldl (m : DragSession) (selIds : List String)
    (objs : Store) (moves : List (String × Rat × Rat)) :
    moves.foldl (fun s mv => dragMoveSession s selIds objs mv.1) (some m)
      = some m := by
  induction moves with
  | nil => rfl
  | cons mv rest ih => simpa [dragMoveSession] using ih

/-- Two entries of a key-nodup association list with the same key are the
same entry. -/
theorem mem_eq_of_nodup_keys {m : PosMap} (hnd : (m.map Prod.fst).Nodup)
    {e f : String × Pos} (he : e ∈ m) (hf : f ∈ m) (h : e.1 = f.1) :
    e = f := by
  induction m with
  | nil => cases he
  | cons a t ih =>
    rw [List.map_cons, List.nodup_cons] at hnd
    rcases List.mem_cons.mp he with rfl | he' <;>
      rcases List.mem_cons.mp hf with rfl | hf'
    · rfl
    · exact absurd (h ▸ List.mem_map_of_mem Prod.fst hf') hnd.1
    · exact absurd (h ▸ List.mem_map_of_mem Prod.fst he')
        (by simpa [h] using hnd.1)
    · exact ih hnd.2 he' hf'

/-- A successful `posGet` names an entry of the map. -/
theorem posGet_mem {m : PosMap} {k : String} {s : Pos}
    (h : posGet m k = some s) : (k, s) ∈ m := by
  unfold posGet at h
  rcases Option.map_eq_some'.mp h with ⟨e, hfind, hsnd⟩
  have hmem := List.mem_of_find?_eq_some hfind
  have hpred := List.find?_some hfind
  have h1 : e.1 = k := by simpa using hpred
  have he : e = (k, s) := by
    cases e with
    | mk e1 e2 => simp at h1 hsnd; rw [h1, hsnd]
  exact he ▸ hmem

/-- C5: for every drag session, any number of intermediate move events leaves
the snapshot unchanged, and on gesture end every participant — primary
included — receives an update putting it at its snapshot position plus the
single delta `final primary position - primary snapshot`, so all end
positions differ from the start positions by exactly that delta. -/
theorem multiDrag_offsets_preserved (m : DragSession) (selIds : List String)
    (objs : Store) (moves : List (String × Rat × Rat)) (ux uy sx sy : Rat)
    (hget : posGet m.startPositions m.draggedId = some (sx, sy))
    (hnd : (m.startPositions.map Prod.fst).Nodup) :
    (moves.foldl (fun s mv => dragMoveSession s selIds objs mv.1) (some m))
      = some m ∧
    ∀ e ∈ m.startPositions,
      (e.1, posPatch (e.2.1 + (ux - sx)) (e.2.2 + (uy - sy))) ∈
        (handleObjectUpdate
          (moves.foldl (fun s mv => dragMoveSession s selIds objs mv.1)
            (some m))
          m.draggedId (posPatch ux uy)).1 := by
  have hfold := dragMoveSession_foldl m selIds objs moves
  refine ⟨hfold, ?_⟩
  rw [hfold]
  have hres : (handleObjectUpdate (some m) m.draggedId (posPatch ux uy)).1
      = (m.draggedId, posPatch ux uy) ::
        (m.startPositions.filter (fun e => e.1 != m.draggedId)).map
          (fun e => (e.1, posPatch (e.2.1 + (ux - sx)) (e.2.2 + (uy - sy)))) := by
    simp [handleObjectUpdate, posPatch, hget]
  rw [hres]
  intro e he
  by_cases hei : e.1 = m.draggedId
  · have he2 : e = (m.draggedId, (sx, sy)) :=
      mem_eq_of_nodup_keys hnd he (posGet_mem hget) hei
    rw [he2]
    have h1 : sx + (ux - sx) = ux := by ring
    have h2 : sy + (uy - sy) = uy := by ring
    simp only [h1, h2]
    exact List.mem_cons_self _ _
  · refine List.mem_cons_of_mem _ ?_
    refine List.mem_map.mpr ?_
    exact ⟨e, List.mem_filter.mpr ⟨he, by simpa using hei⟩, rfl⟩

/-- C5 witness: the spec's three-object selection with offsets (0,0), (20,0),
(0,20), dragged by delta (50,-30) through three intermediate moves. -/
theorem multiDrag_offsets_preserved_witness :
    (c5Moves.foldl (fun s mv => dragMoveSession s [] [] mv.1)
      (some c5Session)) = some c5Session ∧
    ∀ e ∈ c5Session.startPositions,
      (e.1, posPatch (e.2.1 + (50 - 0)) (e.2.2 + (-30 - 0))) ∈
        (handleObjectUpdate
          (c5Moves.foldl (fun s mv => dragMoveSession s [] [] mv.1)
            (some c5Session))
          c5Session.draggedId (posPatch 50 (-30))).1 :=
  multiDrag_offsets_preserved c5Session [] [] c5Moves 50 (-30) 0 0
    (by decide) (by decide)

/-- Concrete containment fact: B's center (30,30) lies inside A's bounds. -/
theorem isInsideFrame_cexB_cexA : isInsideFrame cexB cexA = true := by
  simp [isInsideFrame, cexA, cexB, mkObj]
  norm_num

/-- Concrete containment fact: C's center (25,25) lies inside B's bounds. -/
theorem isInsideFrame_cexC_cexB : isInsideFrame cexC cexB = true := by
  simp [isInsideFrame, cexB, cexC, mkObj]
  norm_num

/-- Concrete containment fact: C's center (25,25) also lies inside A's
bounds. -/
theorem isInsideFrame_cexC_cexA : isInsideFrame cexC cexA = true := by
  simp [isInsideFrame, cexA, cexC, mkObj]
  norm_num

/-- Locked-frame collection over the three-object board when the nested
frame B is locked: B and, through the recursion into B, C are collected. -/
theorem collect_three_locked (A B C : BoardObject)
    (hAid : A.id = "A") (hBid : B.id = "B") (hCid : C.id = "C")
    (hBf : B.type = "frame") (hBl : B.properties_locked = true)
    (hBin : isInsideFrame B A = true) (hCin : isInsideFrame C B = true)
    (hCf : C.type ≠ "frame") (hCc : C.type ≠ "connector") :
    collectLockedFrameContents A [A, B, C] [("A", (A.x, A.y))]
      = [("A", (A.x, A.y)), ("B", (B.x, B.y)), ("C", (C.x, C.y))] := by
  simp [collectLockedFrameContents, collectGo, posHas, posSet,
    hAid, hBid, hCid, hBf, hBl, hBin, hCin, hCf, hCc]

/-- Locked-frame collection when B is unlocked and C's center lies inside A:
C is still collected, directly by A's containment scan. -/
theorem collect_three_unlocked_in (A B C : BoardObject)
    (hAid : A.id = "A") (hBid : B.id = "B") (hCid : C.id = "C")
    (hBf : B.type = "frame") (hBl : B.properties_locked = false)
    (hBin : isInsideFrame B A = true) (hCA : isInsideFrame C A = true)
    (hCf : C.type ≠ "frame") (hCc : C.type ≠ "connector") :
    collectLockedFrameContents A [A, B, C] [("A", (A.x, A.y))]
      = [("A", (A.x, A.y)), ("B", (B.x, B.y)), ("C", (C.x, C.y))] := by
  simp [collectLockedFrameContents, collectGo, posHas, posSet,
    hAid, hBid, hCid, hBf, hBl, hBin, hCA, hCf, hCc]

/-- Locked-frame collection when B is unlocked and C's center lies outside
A: only B is collected. -/
theorem collect_three_unlocked_out (A B C : BoardObject)
    (hAid : A.id = "A") (hBid : B.id = "B") (hCid : C.id = "C")
    (hBf : B.type = "frame") (hBl : B.properties_locked = false)
    (hBin : isInsideFrame B A = true) (hCA : isInsideFrame C A = false)
    (hCf : C.type ≠ "frame") (hCc : C.type ≠ "connector") :
    collectLockedFrameContents A [A, B, C] [("A", (A.x, A.y))]
      = [("A", (A.x, A.y)), ("B", (B.x, B.y))] := by
  simp [collectLockedFrameContents, collectGo, posHas, posSet,
    hAid, hBid, hCid, hBf, hBl, hBin, hCA, hCf, hCc]

/-- Session init for a drag of the locked frame A when B is locked: all
three objects participate. -/
theorem initDragSession_three_locked (A B C : BoardObject)
    (hAid : A.id = "A") (hBid : B.id = "B") (hCid : C.id = "C")
    (hAf : A.type = "frame") (hAl : A.properties_locked = true)
    (hBf : B.type = "frame") (hBl : B.properties_locked = true)
    (hBin : isInsideFrame B A = true) (hCin : isInsideFrame C B = true)
    (hCf : C.type ≠ "frame") (hCc : C.type ≠ "connector") :
    initDragSession A.id [] [A, B, C]
      = some { draggedId := "A"
               startPositions := [("A", (A.x, A.y)), ("B", (B.x, B.y)),
                 ("C", (C.x, C.y))] } := by
  have hcol := collect_three_locked A B C hAid hBid hCid hBf hBl hBin hCin
    hCf hCc
  rw [initDragSession, hAid]
  simp only [List.contains_nil, Bool.false_and, if_false, Bool.false_eq_true,
    ite_false]
  rw [List.find?_cons_of_pos _ (by simp [hAid])]
  simp only [hAf, hAl, posHas, posSet, List.any_nil, Bool.and_self]
  simp only [show (("frame" == "frame") && true) = true from rfl, if_true]
  simp only [List.any_nil, Bool.false_eq_true, ite_false, List.nil_append]
  rw [hcol]
  simp [checkSelLocked, checkSelLockedGo, collectLockedFrameContents,
    collectGo, posHas, posSet, hAid, hBid, hCid, hBf, hBl, hBin, hCin, hCf,
    hCc]

/-- Session init for a drag of the locked frame A when B is unlocked and C's
center lies inside A: C still participates. -/
theorem initDragSession_three_unlocked_in (A B C : BoardObject)
    (hAid : A.id = "A") (hBid : B.id = "B") (hCid : C.id = "C")
    (hAf : A.type = "frame") (hAl : A.properties_locked = true)
    (hBf : B.type = "frame") (hBl : B.properties_locked = false)
    (hBin : isInsideFrame B A = true) (hCA : isInsideFrame C A = true)
    (hCf : C.type ≠ "frame") (hCc : C.type ≠ "connector") :
    initDragSession A.id [] [A, B, C]
      = some { draggedId := "A"
               startPositions := [("A", (A.x, A.y)), ("B", (B.x, B.y)),
                 ("C", (C.x, C.y))] } := by
  have hcol := collect_three_unlocked_in A B C hAid hBid hCid hBf hBl hBin
    hCA hCf hCc
  rw [initDragSession, hAid]
  simp only [List.contains_nil, Bool.false_and, if_false, Bool.false_eq_true,
    ite_false]
  rw [List.find?_cons_of_pos _ (by simp [hAid])]
  simp only [hAf, hAl, posHas, posSet, List.any_nil, Bool.and_self]
  simp only [show (("frame" == "frame") && true) = true from rfl, if_true]
  simp only [List.any_nil, Bool.false_eq_true, ite_false, List.nil_append]
  rw [hcol]
  simp [checkSelLocked, checkSelLockedGo, collectLockedFrameContents,
    collectGo, posHas, posSet, hAid, hBid, hCid, hBf, hBl, hBin, hCA, hCf,
    hCc]

/-- Session init for a drag of the locked frame A when B is unlocked and C's
center lies outside A: only A and B participate. -/
theorem initDragSession_three_unlocked_out (A B C : BoardObject)
    (hAid : A.id = "A") (hBid : B.id = "B") (hCid : C.id = "C")
    (hAf : A.type = "frame") (hAl : A.properties_locked = true)
    (hBf : B.type = "frame") (hBl : B.properties_locked = false)
    (hBin : isInsideFrame B A = true) (hCA : isInsideFrame C A = false)
    (hCf : C.type ≠ "frame") (hCc : C.type ≠ "connector") :
    initDragSession A.id [] [A, B, C]
      = some { draggedId := "A"
               startPositions := [("A", (A.x, A.y)), ("B", (B.x, B.y))] } := by
  have hcol := collect_three_unlocked_out A B C hAid hBid hCid hBf hBl hBin
    hCA hCf hCc
  rw [initDragSession, hAid]
  simp only [List.contains_nil, Bool.false_and, if_false, Bool.false_eq_true,
    ite_false]
  rw [List.find?_cons_of_pos _ (by simp [hAid])]
  simp only [hAf, hAl, posHas, posSet, List.any_nil, Bool.and_self]
  simp only [show (("frame" == "frame") && true) = true from rfl, if_true]
  simp only [List.any_nil, Bool.false_eq_true, ite_false, List.nil_append]
  rw [hcol]
  simp [checkSelLocked, checkSelLockedGo, collectLockedFrameContents,
    collectGo, posHas, posSet, hAid, hBid, hCid, hBf, hBl, hBin, hCA, hCf,
    hCc]

/-- C4 counterexample: the claim says that with B unlocked, dragging the
locked frame A leaves C in place.  In the concrete layout A=(0,0,100×100)
locked, B=(10,10,40×40) unlocked, C=(20,20,10×10) — where C's center (25,25)
lies inside both B and A — ending the drag of A with delta (50,-30) issues an
update moving C to (70,-10): C is collected by A's top-level containment scan
even though B is unlocked. -/
theorem lockedFrame_unlockedChild_still_moves :
    (handleObjectUpdate (initDragSession cexA.id [] [cexA, cexB, cexC])
        cexA.id (posPatch 50 (-30))).1
      = [("A", posPatch 50 (-30)), ("B", posPatch 60 (-20)),
         ("C", posPatch 70 (-10))] ∧
    ((70 : Rat), (-10 : Rat)) ≠ ((20 : Rat), (20 : Rat)) := by
  constructor
  · rw [initDragSession_three_unlocked_in cexA cexB cexC rfl rfl rfl rfl rfl
      rfl rfl isInsideFrame_cexB_cexA isInsideFrame_cexC_cexA (by decide)
      (by decide)]
    have h : cexA.id = "A" := rfl
    rw [h]
    simp [handleObjectUpdate, posGet, posPatch, cexA, cexB, cexC, mkObj]
    norm_num
  · decide

/-- C4 amended: dragging the locked frame A (ids A, B, C; B a frame whose
center lies in A; C a non-frame non-connector whose center lies in B) issues
end-of-gesture updates that move A and B by the drag delta; C is moved by the
same delta exactly when B is locked or C's center lies inside A's bounds —
with B unlocked, C stays in place only when its center is outside A. -/
theorem lockedFrame_containment_amended (A B C : BoardObject) (ux uy : Rat)
    (hAid : A.id = "A") (hBid : B.id = "B") (hCid : C.id = "C")
    (hAf : A.type = "frame") (hAl : A.properties_locked = true)
    (hBf : B.type = "frame")
    (hBin : isInsideFrame B A = true) (hCin : isInsideFrame C B = true)
    (hCf : C.type ≠ "frame") (hCc : C.type ≠ "connector") :
    (handleObjectUpdate (initDragSession A.id [] [A, B, C]) A.id
        (posPatch ux uy)).1
      = ("A", posPatch ux uy)
        :: ("B", posPatch (B.x + (ux - A.x)) (B.y + (uy - A.y)))
        :: (if B.properties_locked = true ∨ isInsideFrame C A = true then
              [("C", posPatch (C.x + (ux - A.x)) (C.y + (uy - A.y)))]
            else []) := by
  by_cases hBl : B.properties_locked = true
  · rw [initDragSession_three_locked A B C hAid hBid hCid hAf hAl hBf hBl
      hBin hCin hCf hCc, hAid]
    simp [handleObjectUpdate, posGet, posPatch, hBl]
  · have hBl' : B.properties_locked = false := by simpa using hBl
    by_cases hCA : isInsideFrame C A = true
    · rw [initDragSession_three_unlocked_in A B C hAid hBid hCid hAf hAl hBf
        hBl' hBin hCA hCf hCc, hAid]
      simp [handleObjectUpdate, posGet, posPatch, hBl', hCA]
    · have hCA' : isInsideFrame C A = false := by simpa using hCA
      rw [initDragSession_three_unlocked_out A B C hAid hBid hCid hAf hAl hBf
        hBl' hBin hCA' hCf hCc, hAid]
      simp [handleObjectUpdate, posGet, posPatch, hBl', hCA']

/-- C4 witness: the amended statement at the concrete layout of the
counterexample (B unlocked, C's center inside A). -/
theorem lockedFrame_containment_amended_witness :
    (handleObjectUpdate (initDragSession cexA.id [] [cexA, cexB, cexC])
        cexA.id (posPatch 50 (-30))).1
      = ("A", posPatch 50 (-30))
        :: ("B", posPatch (cexB.x + (50 - cexA.x)) (cexB.y + (-30 - cexA.y)))
        :: (if cexB.properties_locked = true ∨ isInsideFrame cexC cexA = true
            then [("C", posPatch (cexC.x + (50 - cexA.x))
                (cexC.y + (-30 - cexA.y)))]
            else []) :=
  lockedFrame_containment_amended cexA cexB cexC 50 (-30) rfl rfl rfl rfl rfl
    rfl isInsideFrame_cexB_cexA isInsideFrame_cexC_cexB (by decide)
    (by decide)


end CollabBoard
